import Mathlib

/-!
Shallow embedding of `src/scripts/similiar_artists.py`.

The script reads a listening-history dataset `df`, tallies plays per
(artist, artist_id) pair, picks the artist id at tally position 1 as seed,
queries a music-catalog service for the seed's related artists, expands the
relation graph by querying the target ids at indices 0..3 of the accumulated
edge list, and exports an edge table (`links.xlsx`) and a node table
(`points.xlsx`).

External-service responses are frozen as total functions (a `Service`
record).  The only failures the claims concern are index failures, which we
model with `Option`: a `none` result is the Python run aborting with an
uncaught `IndexError`/`KeyError`.
-/

/-- One listening record of the input dataset `df`: only the two columns the
script reads. -/
structure Record where
  artist : String
  artist_id : String
deriving DecidableEq, Repr

/-- The artist object returned by `sp.artist(id)`: the fields the script
reads (`name`, `id`, `followers.total`, `popularity`,
`external_urls.spotify`, `images[..].url`). -/
structure ArtistObj where
  name : String
  id : String
  followers : Nat
  popularity : Nat
  url : String
  images : List String
deriving DecidableEq, Repr

/-- Frozen external-service responses: `artist q` models `sp.artist(q)` and
`related q` models `sp.artist_related_artists(q)['artists']`. -/
structure Service where
  artist : String → ArtistObj
  related : String → List ArtistObj

/-- The `(artist, artist_id)` key of a record, as grouped by
`df.value_counts(["artist", "artist_id"])`. -/
def pairOf (r : Record) : String × String :=
  (r.artist, r.artist_id)

/-- Number of records of `df` whose key equals `p`. -/
def countPair (df : List Record) (p : String × String) : Nat :=
  (df.filter (fun r => pairOf r = p)).length

/-- The descending-count order `value_counts` sorts by: `x` comes before `y`
when `x`'s count is at least `y`'s. -/
def countGE (x y : (String × String) × Nat) : Prop :=
  y.2 ≤ x.2

instance : DecidableRel countGE :=
  fun x y => Nat.decLe y.2 x.2

instance : IsTotal ((String × String) × Nat) countGE :=
  ⟨fun x y => (Nat.le_total y.2 x.2).imp (fun h => h) (fun h => h)⟩

instance : IsTrans ((String × String) × Nat) countGE :=
  ⟨fun _ _ _ hxy hyz => Nat.le_trans hyz hxy⟩

/-- `df.value_counts(["artist", "artist_id"]).reset_index(name='counts')`:
one row per distinct (artist, artist_id) pair with its occurrence count,
sorted by count descending. -/
def tallyArtists (df : List Record) : List ((String × String) × Nat) :=
  List.insertionSort countGE
    (((df.map pairOf).dedup).map (fun p => (p, countPair df p)))

/-- `topArtist = tallyArtists['artist_id'][1]`: the artist id of the tally
row at position 1; `none` models the `KeyError` when the tally has fewer
than two rows. -/
def topArtist (df : List Record) : Option String :=
  ((tallyArtists df)[1]?).map (fun e => e.1.2)

/-- The dictionary of four parallel lists `links_dict`. -/
structure LinksDict where
  source_name : List String
  source_id : List String
  target_name : List String
  target_id : List String
deriving DecidableEq, Repr

/-- `links_dict` at creation: four empty lists. -/
def emptyLinks : LinksDict :=
  ⟨[], [], [], []⟩

/-- One round of the inner `for artist in ra['artists']` loop body: append
the queried artist `a`'s name/id as source and the related artist `t`'s
name/id as target. -/
def appendOne (a t : ArtistObj) (d : LinksDict) : LinksDict :=
  { source_name := d.source_name ++ [a.name]
    source_id := d.source_id ++ [a.id]
    target_name := d.target_name ++ [t.name]
    target_id := d.target_id ++ [t.id] }

/-- One query round: `a = sp.artist(qid); ra = sp.artist_related_artists(qid)`
followed by the inner append loop over `ra['artists']`. -/
def expandStep (sv : Service) (qid : String) (d : LinksDict) : LinksDict :=
  (sv.related qid).foldl (fun d t => appendOne (sv.artist qid) t d) d

/-- Body of the `for i in range(0, 4)` expansion loop: read
`links_dict['target_id'][i]` from the current state (an out-of-range read
aborts the run) and run a query round on it. -/
def expandIter (sv : Service) (s : Option LinksDict) (i : Nat) : Option LinksDict :=
  s.bind (fun d => ((d.target_id)[i]?).map (fun qid => expandStep sv qid d))

/-- The edge-accumulation stage from a given seed: the seed query round
followed by the four-iteration expansion loop. -/
def buildLinks (sv : Service) (seed : String) : Option LinksDict :=
  (List.range 4).foldl (expandIter sv) (some (expandStep sv seed emptyLinks))

/-- State of `links_dict` after the seed round plus `n` expansion
iterations. -/
def expandState (sv : Service) (seed : String) : Nat → Option LinksDict
  | 0 => some (expandStep sv seed emptyLinks)
  | n + 1 => expandIter sv (expandState sv seed n) n

/-- Instrumented expansion-loop body: also records the queried id. -/
def expandIterT (sv : Service) (s : Option (LinksDict × List String)) (i : Nat) :
    Option (LinksDict × List String) :=
  s.bind (fun dq =>
    ((dq.1.target_id)[i]?).map (fun qid => (expandStep sv qid dq.1, dq.2 ++ [qid])))

/-- Instrumented edge-accumulation stage: returns the final `links_dict`
together with the trace of queried ids (the seed, then the four expansion
queries, in order). -/
def buildLinksTrace (sv : Service) (seed : String) : Option (LinksDict × List String) :=
  (List.range 4).foldl (expandIterT sv) (some (expandStep sv seed emptyLinks, [seed]))

/-- Instrumented state after the seed round plus `n` expansion iterations. -/
def expandStateT (sv : Service) (seed : String) : Nat → Option (LinksDict × List String)
  | 0 => some (expandStep sv seed emptyLinks, [seed])
  | n + 1 => expandIterT sv (expandStateT sv seed n) n

/-- The whole edge stage of the script: seed selection then edge
accumulation. -/
def runLinks (sv : Service) (df : List Record) : Option LinksDict :=
  (topArtist df).bind (fun seed => buildLinks sv seed)

/-- Instrumented whole edge stage. -/
def runLinksTrace (sv : Service) (df : List Record) : Option (LinksDict × List String) :=
  (topArtist df).bind (fun seed => buildLinksTrace sv seed)

/-- One row of the edge table. -/
structure Edge where
  source_name : String
  source_id : String
  target_name : String
  target_id : String
deriving DecidableEq, Repr

/-- Rows obtained by reading the four parallel lists in lockstep (how
`pd.DataFrame(links_dict)` lays the dictionary out row by row). -/
def zipEdges : List String → List String → List String → List String → List Edge
  | sn :: sns, si :: sis, tn :: tns, ti :: tis =>
      ⟨sn, si, tn, ti⟩ :: zipEdges sns sis tns tis
  | _, _, _, _ => []

/-- The edge rows of a `links_dict`. -/
def LinksDict.edges (d : LinksDict) : List Edge :=
  zipEdges d.source_name d.source_id d.target_name d.target_id

/-- The edges one query round on `qid` contributes: one per related artist,
sourced at the queried artist's response name/id. -/
def edgesOf (sv : Service) (qid : String) : List Edge :=
  (sv.related qid).map (fun t => ⟨(sv.artist qid).name, (sv.artist qid).id, t.name, t.id⟩)

/-- The four lists of `links_dict` have equal lengths. -/
def LinksDict.balanced (d : LinksDict) : Prop :=
  d.source_name.length = d.source_id.length ∧
  d.source_id.length = d.target_name.length ∧
  d.target_name.length = d.target_id.length

/-- The dictionary of six parallel lists `points_dict`. -/
structure PointsDict where
  id : List String
  name : List String
  followers : List Nat
  popularity : List Nat
  url : List String
  image : List String
deriving DecidableEq, Repr

/-- `points_dict` at creation: six empty lists. -/
def emptyPoints : PointsDict :=
  ⟨[], [], [], [], [], []⟩

/-- One iteration of the node-collection loop on id `qid`:
`a = sp.artist(qid)` then six appends, the last reading
`a['images'][0]['url']`; an empty image list aborts the run (`none`). -/
def appendPoint (sv : Service) (qid : String) (p : PointsDict) : Option PointsDict :=
  (((sv.artist qid).images)[0]?).map (fun img =>
    { id := p.id ++ [qid]
      name := p.name ++ [(sv.artist qid).name]
      followers := p.followers ++ [(sv.artist qid).followers]
      popularity := p.popularity ++ [(sv.artist qid).popularity]
      url := p.url ++ [(sv.artist qid).url]
      image := p.image ++ [img] })

/-- The node-collection loop over an id list. -/
def buildPoints (sv : Service) (ids : List String) : Option PointsDict :=
  ids.foldl (fun p qid => p.bind (appendPoint sv qid)) (some emptyPoints)

/-- `list(set(links_dict['source_id'] + links_dict['target_id']))`, in one
concrete iteration order; Python's set order is unspecified, which
`IsSetList` captures. -/
def all_artist_ids (d : LinksDict) : List String :=
  (d.source_id ++ d.target_id).dedup

/-- `ids` is a possible value of
`list(set(links_dict['source_id'] + links_dict['target_id']))`: duplicate
free and containing exactly the source and target ids. -/
def IsSetList (d : LinksDict) (ids : List String) : Prop :=
  ids.Nodup ∧ ∀ x, x ∈ ids ↔ x ∈ d.source_id ++ d.target_id

/-- The six lists of `points_dict` have equal lengths. -/
def PointsDict.balanced (p : PointsDict) : Prop :=
  p.id.length = p.name.length ∧
  p.name.length = p.followers.length ∧
  p.followers.length = p.popularity.length ∧
  p.popularity.length = p.url.length ∧
  p.url.length = p.image.length

/-- A serialized spreadsheet: header row plus data rows (all cells as
text). -/
structure Table where
  header : List String
  rows : List (List String)
deriving DecidableEq, Repr

/-- Four parallel lists read off row by row. -/
def zipRow4 : List String → List String → List String → List String → List (List String)
  | a :: as, b :: bs, c :: cs, d :: ds => [a, b, c, d] :: zipRow4 as bs cs ds
  | _, _, _, _ => []

/-- Six parallel lists read off row by row. -/
def zipRow6 : List String → List String → List String → List String →
    List String → List String → List (List String)
  | a :: as, b :: bs, c :: cs, d :: ds, e :: es, f :: fs =>
      [a, b, c, d, e, f] :: zipRow6 as bs cs ds es fs
  | _, _, _, _, _, _ => []

/-- `pd.DataFrame(links_dict).to_excel("links.xlsx", index=False)`: columns
in dictionary insertion order, no row-index column. -/
def linksTable (d : LinksDict) : Table :=
  { header := ["source_name", "source_id", "target_name", "target_id"]
    rows := zipRow4 d.source_name d.source_id d.target_name d.target_id }

/-- `pd.DataFrame(points_dict).to_excel("points.xlsx", index=False)`:
columns in dictionary insertion order, no row-index column. -/
def pointsTable (p : PointsDict) : Table :=
  { header := ["id", "name", "followers", "popularity", "url", "image"]
    rows := zipRow6 p.id p.name (p.followers.map toString)
      (p.popularity.map toString) p.url p.image }

/-- The spreadsheet row a node iteration on `qid` emits (image cell is the
head of the image list; only used where that list is nonempty). -/
def rowOf (sv : Service) (qid : String) : List String :=
  [qid, (sv.artist qid).name, toString (sv.artist qid).followers,
    toString (sv.artist qid).popularity, (sv.artist qid).url,
    ((sv.artist qid).images).headI]

/-- The spreadsheet form of an edge row. -/
def edgeRow (e : Edge) : List String :=
  [e.source_name, e.source_id, e.target_name, e.target_id]

/-! ### Concrete frozen runs used to exercise the theorems -/

/-- A related artist appearing in the frozen responses below. -/
def objX : ArtistObj := ⟨"X", "x", 10, 50, "ux", ["mx"]⟩

/-- A related artist appearing in the frozen responses below. -/
def objY : ArtistObj := ⟨"Y", "y", 20, 60, "uy", ["my"]⟩

/-- A related artist appearing in the frozen responses below. -/
def objZ : ArtistObj := ⟨"Z", "z", 30, 70, "uz", ["mz"]⟩

/-- A frozen service on which the whole pipeline completes; querying `"x"`
returns four related artists (one of them twice), so `"x"` is revisited by
the expansion loop and duplicate edges appear. -/
def svA : Service :=
  { artist := fun q => ⟨"N" ++ q, q, 7, 3, "u" ++ q, ["m" ++ q]⟩
    related := fun q =>
      if q = "idB" then [objX]
      else if q = "x" then [objX, objY, objX, objZ]
      else [] }

/-- The spec's worked dataset: artist A 5 plays, B 3 plays, C 1 play. -/
def exampleDf : List Record :=
  List.replicate 5 ⟨"A", "idA"⟩ ++ List.replicate 3 ⟨"B", "idB"⟩ ++ [⟨"C", "idC"⟩]

/-- The `links_dict` the pipeline produces on `svA` and `exampleDf`. -/
def dA : LinksDict :=
  { source_name := ["NidB", "Nx", "Nx", "Nx", "Nx", "Nx", "Nx", "Nx", "Nx", "Nx",
      "Nx", "Nx", "Nx"]
    source_id := ["idB", "x", "x", "x", "x", "x", "x", "x", "x", "x", "x", "x", "x"]
    target_name := ["X", "X", "Y", "X", "Z", "X", "Y", "X", "Z", "X", "Y", "X", "Z"]
    target_id := ["x", "x", "y", "x", "z", "x", "y", "x", "z", "x", "y", "x", "z"] }

/-- The queried-id trace of that run: the seed `"idB"`, then the expansion
queries; `"x"` is queried three times. -/
def qsA : List String := ["idB", "x", "x", "y", "x"]

/-- One possible set-iteration order for the node ids of `dA`. -/
def idsA : List String := ["idB", "y", "x", "z"]

/-- The `points_dict` the node stage produces on `svA` from `idsA`. -/
def pA : PointsDict :=
  { id := ["idB", "y", "x", "z"]
    name := ["NidB", "Ny", "Nx", "Nz"]
    followers := [7, 7, 7, 7]
    popularity := [3, 3, 3, 3]
    url := ["uidB", "uy", "ux", "uz"]
    image := ["midB", "my", "mx", "mz"] }

/-- A frozen service whose related-artist lists are all empty: the first
expansion iteration has no target id to read. -/
def svC : Service :=
  { artist := fun q => ⟨"N" ++ q, q, 1, 1, "u" ++ q, ["m"]⟩
    related := fun _ => [] }

/-- A frozen service where artist `"z"` has an empty image list. -/
def svNoImg : Service :=
  { artist := fun q => ⟨"N" ++ q, q, 1, 1, "u" ++ q, if q = "z" then [] else ["m"]⟩
    related := fun _ => [] }

/-- A dataset with a single distinct (artist, artist_id) group. -/
def df1 : List Record := List.replicate 3 ⟨"A", "idA"⟩

/-! ### Structural lemmas about the expansion stage -/

theorem foldl_appendOne (a : ArtistObj) (l : List ArtistObj) (d : LinksDict) :
    l.foldl (fun d t => appendOne a t d) d =
      { source_name := d.source_name ++ l.map (fun _ => a.name)
        source_id := d.source_id ++ l.map (fun _ => a.id)
        target_name := d.target_name ++ l.map ArtistObj.name
        target_id := d.target_id ++ l.map ArtistObj.id } := by
  induction l generalizing d with
  | nil => simp
  | cons t l ih =>
      rw [List.foldl_cons, ih]
      simp [appendOne]

theorem expandStep_eq (sv : Service) (qid : String) (d : LinksDict) :
    expandStep sv qid d =
      { source_name := d.source_name ++ (sv.related qid).map (fun _ => (sv.artist qid).name)
        source_id := d.source_id ++ (sv.related qid).map (fun _ => (sv.artist qid).id)
        target_name := d.target_name ++ (sv.related qid).map ArtistObj.name
        target_id := d.target_id ++ (sv.related qid).map ArtistObj.id } :=
  foldl_appendOne (sv.artist qid) (sv.related qid) d

theorem balanced_emptyLinks : emptyLinks.balanced :=
  ⟨rfl, rfl, rfl⟩

theorem balanced_appendOne (a t : ArtistObj) (d : LinksDict) (h : d.balanced) :
    (appendOne a t d).balanced := by
  obtain ⟨h1, h2, h3⟩ := h
  simp [appendOne, LinksDict.balanced, h1, h2, h3]

theorem balanced_expandStep (sv : Service) (qid : String) (d : LinksDict)
    (h : d.balanced) : (expandStep sv qid d).balanced := by
  obtain ⟨h1, h2, h3⟩ := h
  rw [expandStep_eq]
  simp [LinksDict.balanced, h1, h2, h3]

theorem expandState_succ (sv : Service) (seed : String) (n : Nat) :
    expandState sv seed (n + 1) = expandIter sv (expandState sv seed n) n :=
  rfl

theorem buildLinks_eq (sv : Service) (seed : String) :
    buildLinks sv seed = expandState sv seed 4 :=
  rfl

theorem buildLinksTrace_eq (sv : Service) (seed : String) :
    buildLinksTrace sv seed = expandStateT sv seed 4 :=
  rfl

theorem balanced_expandState (sv : Service) (seed : String) :
    ∀ n d, expandState sv seed n = some d → d.balanced := by
  intro n
  induction n with
  | zero =>
      intro d h
      obtain rfl : expandStep sv seed emptyLinks = d := by
        simpa [expandState] using h
      exact balanced_expandStep sv seed emptyLinks balanced_emptyLinks
  | succ n ih =>
      intro d h
      rw [expandState_succ] at h
      cases hs : expandState sv seed n with
      | none => rw [hs] at h; simp [expandIter] at h
      | some dn =>
          rw [hs] at h
          simp only [expandIter, Option.some_bind] at h
          obtain ⟨qid, _, rfl⟩ := Option.map_eq_some'.mp h
          exact balanced_expandStep sv qid dn (ih dn hs)

theorem expandState_none (sv : Service) (seed : String) {m n : Nat} (h : m ≤ n)
    (hm : expandState sv seed m = none) : expandState sv seed n = none := by
  induction n, h using Nat.le_induction with
  | base => exact hm
  | succ n _ ih => rw [expandState_succ, ih]; rfl

theorem expandStateT_fst (sv : Service) (seed : String) :
    ∀ n, (expandStateT sv seed n).map Prod.fst = expandState sv seed n := by
  intro n
  induction n with
  | zero => rfl
  | succ n ih =>
      rw [expandStateT, expandState, ← ih]
      cases expandStateT sv seed n with
      | none => rfl
      | some dq =>
          cases h : dq.1.target_id[n]? with
          | none => simp [expandIterT, expandIter, h]
          | some q => simp [expandIterT, expandIter, h]

theorem expandStateT_state (sv : Service) (seed : String) (n : Nat)
    (d : LinksDict) (qs : List String)
    (h : expandStateT sv seed n = some (d, qs)) :
    expandState sv seed n = some d := by
  rw [← expandStateT_fst, h]
  rfl

theorem expandStateT_succ_elim (sv : Service) (seed : String) (n : Nat)
    (d : LinksDict) (qs : List String)
    (h : expandStateT sv seed (n + 1) = some (d, qs)) :
    ∃ dn qsn qid, expandStateT sv seed n = some (dn, qsn) ∧
      dn.target_id[n]? = some qid ∧
      d = expandStep sv qid dn ∧ qs = qsn ++ [qid] := by
  rw [expandStateT] at h
  cases hs : expandStateT sv seed n with
  | none => rw [hs] at h; simp [expandIterT] at h
  | some dqn =>
      obtain ⟨dn, qsn⟩ := dqn
      rw [hs] at h
      simp only [expandIterT, Option.some_bind] at h
      obtain ⟨qid, hq, heq⟩ := Option.map_eq_some'.mp h
      obtain ⟨h1, h2⟩ := Prod.mk.inj heq
      subst h1
      subst h2
      exact ⟨dn, qsn, qid, hs ▸ rfl, hq, rfl, rfl⟩

theorem expandStateT_spec (sv : Service) (seed : String) :
    ∀ n d qs, expandStateT sv seed n = some (d, qs) →
      qs.length = n + 1 ∧ qs[0]? = some seed ∧
      ∀ i, i < n → ∃ di, expandState sv seed i = some di ∧
        qs[i + 1]? = di.target_id[i]? := by
  intro n
  induction n with
  | zero =>
      intro d qs h
      rw [expandStateT] at h
      obtain ⟨-, h2⟩ := Prod.mk.inj (Option.some.inj h)
      subst h2
      exact ⟨rfl, rfl, fun i hi => absurd hi (Nat.not_lt_zero i)⟩
  | succ n ih =>
      intro d qs h
      obtain ⟨dn, qsn, qid, hs, hq, -, rfl⟩ := expandStateT_succ_elim sv seed n d qs h
      obtain ⟨hlen, hhead, hprev⟩ := ih dn qsn hs
      refine ⟨by simp [hlen], ?_, ?_⟩
      · rw [List.getElem?_append_left (by omega), hhead]
      · intro i hi
        rcases Nat.lt_or_ge i n with hin | hin
        · obtain ⟨di, hdi, hqi⟩ := hprev i hin
          exact ⟨di, hdi, by rw [List.getElem?_append_left (by omega), hqi]⟩
        · have hieq : i = n := by omega
          subst hieq
          refine ⟨dn, expandStateT_state sv seed i dn qsn hs, ?_⟩
          rw [hq]
          have : qsn.length = i + 1 := hlen
          rw [show i + 1 = qsn.length from this.symm]
          simp

/-! ### Reading the parallel lists off as edge rows -/

theorem zipEdges_append (a₁ b₁ c₁ d₁ a₂ b₂ c₂ d₂ : List String)
    (hab : a₁.length = b₁.length) (hbc : b₁.length = c₁.length)
    (hcd : c₁.length = d₁.length) :
    zipEdges (a₁ ++ a₂) (b₁ ++ b₂) (c₁ ++ c₂) (d₁ ++ d₂) =
      zipEdges a₁ b₁ c₁ d₁ ++ zipEdges a₂ b₂ c₂ d₂ := by
  induction a₁ generalizing b₁ c₁ d₁ with
  | nil =>
      obtain rfl : b₁ = [] := List.length_eq_zero.mp hab.symm
      obtain rfl : c₁ = [] := List.length_eq_zero.mp hbc.symm
      obtain rfl : d₁ = [] := List.length_eq_zero.mp hcd.symm
      simp [zipEdges]
  | cons x a₁ ih =>
      cases b₁ with
      | nil => simp at hab
      | cons y b₁ =>
          cases c₁ with
          | nil => simp at hbc
          | cons z c₁ =>
              cases d₁ with
              | nil => simp at hcd
              | cons w d₁ =>
                  have hab' : a₁.length = b₁.length := Nat.succ.inj hab
                  have hbc' : b₁.length = c₁.length := Nat.succ.inj hbc
                  have hcd' : c₁.length = d₁.length := Nat.succ.inj hcd
                  show Edge.mk x y z w ::
                      zipEdges (a₁ ++ a₂) (b₁ ++ b₂) (c₁ ++ c₂) (d₁ ++ d₂) =
                    Edge.mk x y z w ::
                      (zipEdges a₁ b₁ c₁ d₁ ++ zipEdges a₂ b₂ c₂ d₂)
                  rw [ih b₁ c₁ d₁ hab' hbc' hcd']

theorem zipEdges_map (a : ArtistObj) (l : List ArtistObj) :
    zipEdges (l.map fun _ => a.name) (l.map fun _ => a.id)
      (l.map ArtistObj.name) (l.map ArtistObj.id) =
      l.map (fun t => ⟨a.name, a.id, t.name, t.id⟩) := by
  induction l with
  | nil => rfl
  | cons t l ih => simp only [List.map_cons, zipEdges, ih]

theorem edges_emptyLinks : emptyLinks.edges = [] :=
  rfl

theorem edges_expandStep (sv : Service) (qid : String) (d : LinksDict)
    (h : d.balanced) :
    (expandStep sv qid d).edges = d.edges ++ edgesOf sv qid := by
  obtain ⟨h1, h2, h3⟩ := h
  rw [expandStep_eq]
  show zipEdges _ _ _ _ = _
  rw [zipEdges_append _ _ _ _ _ _ _ _ h1 h2 h3, zipEdges_map]
  rfl

theorem edges_expandStateT (sv : Service) (seed : String) :
    ∀ n d qs, expandStateT sv seed n = some (d, qs) →
      d.edges = (qs.map (edgesOf sv)).flatten := by
  intro n
  induction n with
  | zero =>
      intro d qs h
      rw [expandStateT] at h
      obtain ⟨h1, h2⟩ := Prod.mk.inj (Option.some.inj h)
      subst h1
      subst h2
      rw [edges_expandStep sv seed emptyLinks balanced_emptyLinks,
        edges_emptyLinks]
      simp
  | succ n ih =>
      intro d qs h
      obtain ⟨dn, qsn, qid, hs, -, rfl, rfl⟩ := expandStateT_succ_elim sv seed n d qs h
      have hbal : dn.balanced :=
        balanced_expandState sv seed n dn (expandStateT_state sv seed n dn qsn hs)
      rw [edges_expandStep sv qid dn hbal, ih dn qsn hs]
      simp

/-! ### Structural lemmas about the node stage -/

theorem foldl_points_none (sv : Service) (ids : List String) :
    ids.foldl (fun p qid => p.bind (appendPoint sv qid)) none = none := by
  induction ids with
  | nil => rfl
  | cons a l ih => exact ih

theorem foldl_points_some (sv : Service) :
    ∀ (ids : List String) (p₀ p : PointsDict),
      ids.foldl (fun p qid => p.bind (appendPoint sv qid)) (some p₀) = some p →
      p.id = p₀.id ++ ids ∧
      p.name = p₀.name ++ ids.map (fun q => (sv.artist q).name) ∧
      p.followers = p₀.followers ++ ids.map (fun q => (sv.artist q).followers) ∧
      p.popularity = p₀.popularity ++ ids.map (fun q => (sv.artist q).popularity) ∧
      p.url = p₀.url ++ ids.map (fun q => (sv.artist q).url) ∧
      p.image = p₀.image ++ ids.map (fun q => ((sv.artist q).images).headI) ∧
      ∀ q ∈ ids, (sv.artist q).images ≠ [] := by
  intro ids
  induction ids with
  | nil =>
      intro p₀ p h
      obtain rfl := Option.some.inj h
      simp
  | cons a l ih =>
      intro p₀ p h
      rw [List.foldl_cons] at h
      cases happ : appendPoint sv a p₀ with
      | none =>
          rw [Option.some_bind, happ] at h
          rw [foldl_points_none] at h
          exact absurd h (Option.noConfusion)
      | some p₁ =>
          rw [Option.some_bind, happ] at h
          cases himg : (sv.artist a).images with
          | nil =>
              rw [appendPoint, himg] at happ
              simp only [List.getElem?_nil, Option.map_none'] at happ
              exact Option.noConfusion happ
          | cons img rest =>
              rw [appendPoint, himg] at happ
              simp only [List.getElem?_cons_zero, Option.map_some'] at happ
              obtain rfl := Option.some.inj happ.symm
              obtain ⟨e1, e2, e3, e4, e5, e6, e7⟩ := ih _ p h
              refine ⟨?_, ?_, ?_, ?_, ?_, ?_, ?_⟩
              · rw [e1]; simp
              · rw [e2]; simp
              · rw [e3]; simp
              · rw [e4]; simp
              · rw [e5]; simp
              · rw [e6]; simp [himg]
              · intro q hq
                rcases List.mem_cons.mp hq with rfl | hql
                · rw [himg]; exact List.cons_ne_nil img rest
                · exact e7 q hql

theorem buildPoints_some (sv : Service) (ids : List String) (p : PointsDict)
    (h : buildPoints sv ids = some p) :
    p.id = ids ∧
    p.name = ids.map (fun q => (sv.artist q).name) ∧
    p.followers = ids.map (fun q => (sv.artist q).followers) ∧
    p.popularity = ids.map (fun q => (sv.artist q).popularity) ∧
    p.url = ids.map (fun q => (sv.artist q).url) ∧
    p.image = ids.map (fun q => ((sv.artist q).images).headI) ∧
    ∀ q ∈ ids, (sv.artist q).images ≠ [] := by
  have hfold := foldl_points_some sv ids emptyPoints p h
  simpa [emptyPoints] using hfold

theorem IsSetList_all_artist_ids (d : LinksDict) :
    IsSetList d (all_artist_ids d) :=
  ⟨List.nodup_dedup _, fun _ => List.mem_dedup⟩

/-! ### Spreadsheet-layout lemmas -/

theorem zipRow4_eq_edges (a : List String) :
    ∀ b c d, zipRow4 a b c d = (zipEdges a b c d).map edgeRow := by
  induction a with
  | nil => intro b c d; cases b <;> cases c <;> cases d <;> rfl
  | cons x as ih =>
      intro b c d
      cases b with
      | nil => rfl
      | cons y bs =>
          cases c with
          | nil => rfl
          | cons z cs =>
              cases d with
              | nil => rfl
              | cons w ds =>
                  show [x, y, z, w] :: zipRow4 as bs cs ds =
                    edgeRow ⟨x, y, z, w⟩ :: (zipEdges as bs cs ds).map edgeRow
                  rw [ih bs cs ds]
                  rfl

theorem zipRow6_fromMaps (l : List String) (f₂ f₃ f₄ f₅ f₆ : String → String) :
    zipRow6 l (l.map f₂) (l.map f₃) (l.map f₄) (l.map f₅) (l.map f₆) =
      l.map (fun x => [x, f₂ x, f₃ x, f₄ x, f₅ x, f₆ x]) := by
  induction l with
  | nil => rfl
  | cons x l ih => simp only [List.map_cons, zipRow6, ih]

theorem pointsTable_rows (sv : Service) (ids : List String) (p : PointsDict)
    (h : buildPoints sv ids = some p) :
    (pointsTable p).rows = ids.map (rowOf sv) := by
  obtain ⟨h1, h2, h3, h4, h5, h6, -⟩ := buildPoints_some sv ids p h
  show zipRow6 p.id p.name (p.followers.map toString)
      (p.popularity.map toString) p.url p.image = ids.map (rowOf sv)
  rw [h1, h2, h3, h4, h5, h6, List.map_map, List.map_map]
  exact zipRow6_fromMaps ids _ _ _ _ _

theorem zipEdges_proj (a : List String) :
    ∀ b c d, a.length = b.length → b.length = c.length → c.length = d.length →
      (zipEdges a b c d).map Edge.source_id = b ∧
      (zipEdges a b c d).map Edge.target_id = d := by
  induction a with
  | nil =>
      intro b c d hab hbc hcd
      obtain rfl : b = [] := List.length_eq_zero.mp hab.symm
      obtain rfl : c = [] := List.length_eq_zero.mp hbc.symm
      obtain rfl : d = [] := List.length_eq_zero.mp hcd.symm
      exact ⟨rfl, rfl⟩
  | cons x as ih =>
      intro b c d hab hbc hcd
      cases b with
      | nil => simp at hab
      | cons y bs =>
          cases c with
          | nil => simp at hbc
          | cons z cs =>
              cases d with
              | nil => simp at hcd
              | cons w ds =>
                  obtain ⟨hsrc, htgt⟩ := ih bs cs ds (Nat.succ.inj hab)
                    (Nat.succ.inj hbc) (Nat.succ.inj hcd)
                  constructor
                  · show y :: (zipEdges as bs cs ds).map Edge.source_id = y :: bs
                    rw [hsrc]
                  · show w :: (zipEdges as bs cs ds).map Edge.target_id = w :: ds
                    rw [htgt]

theorem edges_proj (d : LinksDict) (h : d.balanced) :
    d.edges.map Edge.source_id = d.source_id ∧
    d.edges.map Edge.target_id = d.target_id := by
  obtain ⟨h1, h2, h3⟩ := h
  exact zipEdges_proj d.source_name d.source_id d.target_name d.target_id h1 h2 h3

/-! ### Seed-selection lemmas -/

theorem tally_length (df : List Record) :
    (tallyArtists df).length = ((df.map pairOf).dedup).length := by
  rw [tallyArtists, List.length_insertionSort, List.length_map]

theorem tally_mem (df : List Record) (e : (String × String) × Nat)
    (h : e ∈ tallyArtists df) :
    e.1 ∈ (df.map pairOf).dedup ∧ e.2 = countPair df e.1 := by
  rw [tallyArtists] at h
  have hm := (List.perm_insertionSort countGE _).mem_iff.mp h
  obtain ⟨p, hp, rfl⟩ := List.mem_map.mp hm
  exact ⟨hp, rfl⟩

theorem tally_complete (df : List Record) (p : String × String)
    (h : p ∈ df.map pairOf) : (p, countPair df p) ∈ tallyArtists df := by
  rw [tallyArtists]
  refine (List.perm_insertionSort countGE _).mem_iff.mpr ?_
  exact List.mem_map.mpr ⟨p, List.mem_dedup.mpr h, rfl⟩

/-! ### Claim theorems -/

/-- C1: seed selection tallies occurrences per (artist, artist_id) pair
(every tally row carries the exact occurrence count of its pair and every
occurring pair has a tally row), orders the tally by count descending, and
selects the artist id of the row at position 1 — the second-most-frequent
artist, not the top one; on the dataset A (5 plays), B (3 plays), C (1
play) the selected seed is B. -/
theorem claim_C1 :
    (∀ df : List Record, List.Sorted countGE (tallyArtists df)) ∧
    (∀ df : List Record, ∀ e ∈ tallyArtists df, e.2 = countPair df e.1) ∧
    (∀ (df : List Record) (p : String × String), p ∈ df.map pairOf →
        (p, countPair df p) ∈ tallyArtists df) ∧
    (∀ (df : List Record) (e : (String × String) × Nat),
        (tallyArtists df)[1]? = some e → topArtist df = some e.1.2) ∧
    topArtist exampleDf = some "idB" := by
  refine ⟨?_, ?_, ?_, ?_, by decide⟩
  · intro df
    rw [tallyArtists]
    exact List.sorted_insertionSort countGE _
  · intro df e he
    exact (tally_mem df e he).2
  · intro df p hp
    exact tally_complete df p hp
  · intro df e he
    rw [topArtist, he]
    rfl

/-- Witness for C1 at the spec's concrete dataset. -/
theorem claim_C1_witness :
    (tallyArtists exampleDf)[1]? = some (("B", "idB"), 3) ∧
    topArtist exampleDf = some "idB" :=
  ⟨by decide, claim_C1.2.2.2.1 exampleDf (("B", "idB"), 3) (by decide)⟩

/-- C5: if any id encountered during node attribute collection has an
empty image list, the node stage fails with an index failure (`none`)
rather than emitting a row with a placeholder image. -/
theorem claim_C5 (sv : Service) (ids : List String) (qid : String)
    (hmem : qid ∈ ids) (himg : (sv.artist qid).images = []) :
    buildPoints sv ids = none := by
  cases h : buildPoints sv ids with
  | none => rfl
  | some p =>
      have hne := (buildPoints_some sv ids p h).2.2.2.2.2.2 qid hmem
      exact absurd himg hne

/-- Witness for C5: artist `"z"` of `svNoImg` has no images, so the node
stage over an id list containing `"z"` fails. -/
theorem claim_C5_witness :
    "z" ∈ ["x", "z"] ∧ buildPoints svNoImg ["x", "z"] = none :=
  ⟨by decide, claim_C5 svNoImg ["x", "z"] "z" (by decide) (by decide)⟩

/-- C6: an input with fewer than two distinct (artist, artist_id) groups
makes seed selection fail with an out-of-range read (`none`) rather than
silently selecting the sole artist. -/
theorem claim_C6 (df : List Record)
    (h : ((df.map pairOf).dedup).length < 2) : topArtist df = none := by
  rw [topArtist, List.getElem?_eq_none (by rw [tally_length]; omega)]
  rfl

/-- Witness for C6: a dataset with exactly one distinct artist. -/
theorem claim_C6_witness :
    ((df1.map pairOf).dedup).length < 2 ∧ topArtist df1 = none :=
  ⟨by decide, claim_C6 df1 (by decide)⟩

/-- C9: if at the start of expansion iteration `i` (i < 4) the accumulated
edge list has at most `i` edges, the run aborts with an out-of-range read
of `links_dict['target_id'][i]`. -/
theorem claim_C9 (sv : Service) (seed : String) (i : Nat) (d : LinksDict)
    (hi : i < 4) (hs : expandState sv seed i = some d)
    (hlen : d.target_id.length ≤ i) : buildLinks sv seed = none := by
  rw [buildLinks_eq]
  have hnone : expandState sv seed (i + 1) = none := by
    rw [expandState_succ, hs]
    simp [expandIter, List.getElem?_eq_none hlen]
  exact expandState_none sv seed (by omega) hnone

/-- Witness for C9: a service whose related-artist lists are empty leaves
iteration 0 with no target id to read. -/
theorem claim_C9_witness :
    expandState svC "s" 0 = some emptyLinks ∧ buildLinks svC "s" = none :=
  ⟨rfl, claim_C9 svC "s" 0 emptyLinks (by omega) rfl (by decide)⟩

/-- C10: each append round preserves equal lengths of the four edge-table
lists, every state the expansion stage reaches is balanced, each node
iteration preserves equal lengths of the six node-table lists, and every
completed node stage is balanced — the invariant that makes both table
constructions well-formed. -/
theorem claim_C10 :
    (∀ (a t : ArtistObj) (d : LinksDict), d.balanced →
        (appendOne a t d).balanced) ∧
    (∀ (a : ArtistObj) (l : List ArtistObj) (d : LinksDict), d.balanced →
        (l.foldl (fun d t => appendOne a t d) d).balanced) ∧
    (∀ (sv : Service) (seed : String) (n : Nat) (d : LinksDict),
        expandState sv seed n = some d → d.balanced) ∧
    (∀ (sv : Service) (qid : String) (p p' : PointsDict),
        appendPoint sv qid p = some p' → p.balanced → p'.balanced) ∧
    (∀ (sv : Service) (ids : List String) (p : PointsDict),
        buildPoints sv ids = some p → p.balanced) := by
  refine ⟨balanced_appendOne, ?_, balanced_expandState, ?_, ?_⟩
  · intro a l d hd
    rw [foldl_appendOne]
    obtain ⟨h1, h2, h3⟩ := hd
    simp [LinksDict.balanced, h1, h2, h3]
  · intro sv qid p p' happ hp
    cases himg : (sv.artist qid).images with
    | nil =>
        rw [appendPoint, himg] at happ
        simp only [List.getElem?_nil, Option.map_none'] at happ
        exact Option.noConfusion happ
    | cons img rest =>
        rw [appendPoint, himg] at happ
        simp only [List.getElem?_cons_zero, Option.map_some'] at happ
        obtain rfl := Option.some.inj happ.symm
        obtain ⟨g1, g2, g3, g4, g5⟩ := hp
        simp [PointsDict.balanced, g1, g2, g3, g4, g5]
  · intro sv ids p h
    obtain ⟨h1, h2, h3, h4, h5, h6, -⟩ := buildPoints_some sv ids p h
    simp [PointsDict.balanced, h1, h2, h3, h4, h5, h6]

/-- Witness for C10 at a concrete balanced state. -/
theorem claim_C10_witness : (appendOne objX objY emptyLinks).balanced :=
  claim_C10.1 objX objY emptyLinks ⟨rfl, rfl, rfl⟩

/-- C2: in a run where all five external calls succeed, the edge table is
exactly the concatenation, over the five queried ids, of one edge per
related artist returned (the queried artist's response name/id as source,
the related artist's name/id as target); its row count is the total number
of related artists returned across the five calls. -/
theorem claim_C2 (sv : Service) (df : List Record) (d : LinksDict)
    (qs : List String) (h : runLinksTrace sv df = some (d, qs)) :
    qs.length = 5 ∧
    d.edges = (qs.map (edgesOf sv)).flatten ∧
    d.edges.length = (qs.map (fun q => (sv.related q).length)).sum := by
  rw [runLinksTrace] at h
  obtain ⟨seed, -, hbuild⟩ := Option.bind_eq_some.mp h
  rw [buildLinksTrace_eq] at hbuild
  have hlen := (expandStateT_spec sv seed 4 d qs hbuild).1
  have hedges := edges_expandStateT sv seed 4 d qs hbuild
  have hfun : (List.length ∘ edgesOf sv) = fun q => (sv.related q).length := by
    funext q
    simp [edgesOf]
  refine ⟨hlen, hedges, ?_⟩
  rw [hedges, List.length_flatten, List.map_map, hfun]

/-- Witness for C2 on the concrete frozen run. -/
theorem claim_C2_witness :
    runLinksTrace svA exampleDf = some (dA, qsA) ∧
    dA.edges.length = (qsA.map (fun q => (svA.related q).length)).sum :=
  ⟨by decide, (claim_C2 svA exampleDf dA qsA (by decide)).2.2⟩

/-- C3: the expansion stage runs once for the seed and then exactly four
more times, the i-th expansion querying the target id stored at index i of
the edge list as it exists when that iteration runs; there is no
visited-set, and on `svA` the id `"x"` is revisited and its edges are
appended again without deduplication. -/
theorem claim_C3 :
    (∀ (sv : Service) (seed : String) (d : LinksDict) (qs : List String),
        buildLinksTrace sv seed = some (d, qs) →
        qs.length = 5 ∧ qs[0]? = some seed ∧
        ∀ i, i < 4 → ∃ di, expandState sv seed i = some di ∧
          qs[i + 1]? = di.target_id[i]?) ∧
    (buildLinksTrace svA "idB" = some (dA, qsA) ∧
      ¬ qsA.Nodup ∧ ¬ dA.edges.Nodup) := by
  constructor
  · intro sv seed d qs h
    rw [buildLinksTrace_eq] at h
    exact expandStateT_spec sv seed 4 d qs h
  · exact ⟨by decide, by decide, by decide⟩

/-- Witness for C3 on the concrete frozen run. -/
theorem claim_C3_witness : qsA.length = 5 :=
  (claim_C3.1 svA "idB" dA qsA (by decide)).1

/-- C4: the node table's id set equals the set union of the source and
target ids of the edge table, it has no duplicate ids, and every node id
occurs in at least one edge as source or target. -/
theorem claim_C4 (sv : Service) (df : List Record) (d : LinksDict)
    (ids : List String) (p : PointsDict) (hrun : runLinks sv df = some d)
    (hset : IsSetList d ids) (hpts : buildPoints sv ids = some p) :
    p.id.Nodup ∧
    (∀ x, x ∈ p.id ↔ (x ∈ d.source_id ∨ x ∈ d.target_id)) ∧
    (∀ x ∈ p.id, ∃ e ∈ d.edges, e.source_id = x ∨ e.target_id = x) := by
  obtain ⟨hid, -⟩ := buildPoints_some sv ids p hpts
  obtain ⟨hnd, hmem⟩ := hset
  have hbal : d.balanced := by
    rw [runLinks] at hrun
    obtain ⟨seed, -, hbuild⟩ := Option.bind_eq_some.mp hrun
    rw [buildLinks_eq] at hbuild
    exact balanced_expandState sv seed 4 d hbuild
  obtain ⟨hsrc, htgt⟩ := edges_proj d hbal
  subst hid
  refine ⟨hnd, fun x => (hmem x).trans List.mem_append, ?_⟩
  intro x hx
  rcases List.mem_append.mp ((hmem x).mp hx) with hl | hr
  · rw [← hsrc] at hl
    obtain ⟨e, he, rfl⟩ := List.mem_map.mp hl
    exact ⟨e, he, Or.inl rfl⟩
  · rw [← htgt] at hr
    obtain ⟨e, he, rfl⟩ := List.mem_map.mp hr
    exact ⟨e, he, Or.inr rfl⟩

/-- Witness for C4 on the concrete frozen run. -/
theorem claim_C4_witness : pA.id.Nodup :=
  (claim_C4 svA exampleDf dA idsA pA (by decide)
    ((by decide : all_artist_ids dA = idsA) ▸ IsSetList_all_artist_ids dA)
    (by decide)).1

/-- C7: the edge export has exactly the four columns source_name,
source_id, target_name, target_id, one 4-cell row per accumulated edge in
discovery order with duplicates retained and no row-index column; the node
export has exactly the six columns id, name, followers, popularity, url,
image, one 6-cell row per collected id and no row index. -/
theorem claim_C7 (sv : Service) (d : LinksDict) (ids : List String)
    (p : PointsDict) (hpts : buildPoints sv ids = some p) :
    (linksTable d).header =
      ["source_name", "source_id", "target_name", "target_id"] ∧
    (linksTable d).rows = d.edges.map edgeRow ∧
    (∀ row ∈ (linksTable d).rows, row.length = 4) ∧
    (linksTable d).rows.length = d.edges.length ∧
    (pointsTable p).header =
      ["id", "name", "followers", "popularity", "url", "image"] ∧
    (pointsTable p).rows = ids.map (rowOf sv) ∧
    (∀ row ∈ (pointsTable p).rows, row.length = 6) := by
  have hrows : (linksTable d).rows = d.edges.map edgeRow :=
    zipRow4_eq_edges d.source_name d.source_id d.target_name d.target_id
  have hprow := pointsTable_rows sv ids p hpts
  refine ⟨rfl, hrows, ?_, ?_, rfl, hprow, ?_⟩
  · intro row hrow
    rw [hrows] at hrow
    obtain ⟨e, -, rfl⟩ := List.mem_map.mp hrow
    rfl
  · rw [hrows, List.length_map]
  · intro row hrow
    rw [hprow] at hrow
    obtain ⟨q, -, rfl⟩ := List.mem_map.mp hrow
    rfl

/-- Witness for C7 on the concrete frozen run. -/
theorem claim_C7_witness :
    (linksTable dA).header =
      ["source_name", "source_id", "target_name", "target_id"] :=
  (claim_C7 svA dA idsA pA (by decide)).1

/-- A possible observable outcome of one full run: some set-iteration
order of the node ids yields these two exported tables. -/
def RunOutcome (sv : Service) (df : List Record) (lt pt : Table) : Prop :=
  ∃ d ids p, runLinks sv df = some d ∧ IsSetList d ids ∧
    buildPoints sv ids = some p ∧ lt = linksTable d ∧ pt = pointsTable p

/-- C8: two runs over the same dataset and the same frozen responses
produce identical edge tables (content and order) and node tables that
agree up to row ordering — set-iteration order is the only
nondeterminism. -/
theorem claim_C8 (sv : Service) (df : List Record) (lt₁ pt₁ lt₂ pt₂ : Table)
    (h₁ : RunOutcome sv df lt₁ pt₁) (h₂ : RunOutcome sv df lt₂ pt₂) :
    lt₁ = lt₂ ∧ pt₁.header = pt₂.header ∧ pt₁.rows.Perm pt₂.rows := by
  obtain ⟨d₁, ids₁, p₁, hr₁, hs₁, hp₁, rfl, rfl⟩ := h₁
  obtain ⟨d₂, ids₂, p₂, hr₂, hs₂, hp₂, rfl, rfl⟩ := h₂
  obtain rfl : d₁ = d₂ := Option.some.inj (hr₁.symm.trans hr₂)
  refine ⟨rfl, rfl, ?_⟩
  rw [pointsTable_rows sv ids₁ p₁ hp₁, pointsTable_rows sv ids₂ p₂ hp₂]
  refine List.Perm.map _ ?_
  refine (List.perm_ext_iff_of_nodup hs₁.1 hs₂.1).mpr ?_
  intro a
  rw [hs₁.2 a, hs₂.2 a]

/-- Witness for C8 on the concrete frozen run. -/
theorem claim_C8_witness : (pointsTable pA).rows.Perm (pointsTable pA).rows :=
  (claim_C8 svA exampleDf (linksTable dA) (pointsTable pA) (linksTable dA)
    (pointsTable pA)
    ⟨dA, idsA, pA, by decide,
      (by decide : all_artist_ids dA = idsA) ▸ IsSetList_all_artist_ids dA,
      by decide, rfl, rfl⟩
    ⟨dA, idsA, pA, by decide,
      (by decide : all_artist_ids dA = idsA) ▸ IsSetList_all_artist_ids dA,
      by decide, rfl, rfl⟩).2.2
